import Mathlib

/-!
Verification of the odoo-mcp-server core: a shallow embedding of the
HTTP/stdio MCP server (credential extraction, session store, JSON-RPC
dispatcher, tool registry/controller, batch endpoint and record sanitizer),
with theorems checking the natural-language specification against it.

Sources embedded:
  * `src/http-mcp-server.ts` — `extractOdooHeaders`, `HttpMcpServer`
    (session creation, JSON-RPC dispatch `processJsonRpcRequest`,
    batch endpoint, session termination);
  * `src/controllers/index.ts` — `McpServerController`;
  * `src/models/index.ts` — `ToolRegistry`;
  * `src/utils/odoo-sanitizer.ts` — `sanitizeOdooRecords`, `enforceSafeLimit`.

Conventions of the embedding:
  * JavaScript values that flow through `JSON.stringify` are modelled by the
    `Json` type below (a mutual inductive, so that every function on it is
    structurally recursive and kernel-reducible).
  * `undefined` is modelled by `Option`; JavaScript truthiness of a present
    value is modelled explicitly where the code relies on it.
  * async functions are pure functions; a `throw` is an `Except.error`
    carrying the error message (`error.message`).
  * object identity of controller instances (`new McpServerController()`)
    is modelled by an allocation counter: each allocation yields a fresh
    numeric instance id.
-/

/- JSON values (JavaScript values serialisable by `JSON.stringify`).
Arrays and objects are separate mutual inductives so that recursion over
nested values stays structural. Numbers are integers: the code under
verification only ever compares and serialises them. -/
mutual
inductive Json where
  | null : Json
  | bool (b : Bool) : Json
  | num (n : Int) : Json
  | str (s : String) : Json
  | arr (items : JsonArr) : Json
  | obj (fields : JsonObj) : Json
inductive JsonArr where
  | nil : JsonArr
  | cons (hd : Json) (tl : JsonArr) : JsonArr
inductive JsonObj where
  | nil : JsonObj
  | cons (key : String) (val : Json) (tl : JsonObj) : JsonObj
end

/-- Build a `JsonArr` from a list (convenience for literals). -/
def arrOfList : List Json → JsonArr
  | [] => .nil
  | x :: xs => .cons x (arrOfList xs)

/-- Build a `JsonObj` from a list of key/value pairs (convenience for literals). -/
def objOfList : List (String × Json) → JsonObj
  | [] => .nil
  | (k, v) :: xs => .cons k v (objOfList xs)

/-- First binding for `k`, like JavaScript property access `o[k]`. -/
def JsonObj.lookup : JsonObj → String → Option Json
  | .nil, _ => none
  | .cons k v tl, key => if k = key then some v else tl.lookup key

/-- JavaScript `k in o`. -/
def JsonObj.hasKey (o : JsonObj) (k : String) : Bool :=
  (o.lookup k).isSome

/-- Property access `j.k`: `undefined` (`none`) unless `j` is an object
with the key. -/
def Json.getField : Json → String → Option Json
  | .obj fields, k => fields.lookup k
  | _, _ => none

/-- JavaScript truthiness of a `Json` value (`null`, `false`, `0` and the
empty string are falsy; arrays and objects are always truthy). -/
def Json.truthy : Json → Bool
  | .null => false
  | .bool b => b
  | .num n => n != 0
  | .str s => s != ""
  | .arr _ => true
  | .obj _ => true

/-- `typeof v === 'object' && v !== null` for `Json` values (arrays and
objects; `null` is excluded because every use site first checks `!v`). -/
def jsIsObjectType : Json → Bool
  | .arr _ => true
  | .obj _ => true
  | _ => false

/-- The double-quote character (written via its code point to keep string
literals in this file free of quoting subtleties). -/
def quoteChar : Char := Char.ofNat 34

/-- The backslash character. -/
def backslashChar : Char := Char.ofNat 92

/-- The single-quote character (appears in some of the server's message
strings). -/
def singleQuote : String := (Char.ofNat 39).toString

/-- Lowercase hex digit, for `\u00XX` escapes. -/
def hexDigit (n : Nat) : Char :=
  if n < 10 then Char.ofNat (48 + n) else Char.ofNat (97 + n - 10)

/-- Escape one character the way `JSON.stringify` does. -/
def jsonEscapeChar (c : Char) : String :=
  if c = quoteChar then String.mk [backslashChar, quoteChar]
  else if c = backslashChar then String.mk [backslashChar, backslashChar]
  else if c = Char.ofNat 10 then String.mk [backslashChar, Char.ofNat 110]
  else if c = Char.ofNat 13 then String.mk [backslashChar, Char.ofNat 114]
  else if c = Char.ofNat 9 then String.mk [backslashChar, Char.ofNat 116]
  else if c = Char.ofNat 8 then String.mk [backslashChar, Char.ofNat 98]
  else if c = Char.ofNat 12 then String.mk [backslashChar, Char.ofNat 102]
  else if c.toNat < 32 then
    String.mk [backslashChar, Char.ofNat 117, Char.ofNat 48, Char.ofNat 48,
      hexDigit (c.toNat / 16), hexDigit (c.toNat % 16)]
  else String.mk [c]

/-- Quote a string the way `JSON.stringify` does. -/
def jsonQuote (s : String) : String :=
  quoteChar.toString ++ String.join (s.toList.map jsonEscapeChar) ++ quoteChar.toString

/- `JSON.stringify` for the `Json` model (insertion key order, no spacing —
matching `JSON.stringify(value)` with no extra arguments). -/
mutual
def Json.stringify : Json → String
  | .null => "null"
  | .bool b => if b then "true" else "false"
  | .num n => toString n
  | .str s => jsonQuote s
  | .arr items => "[" ++ JsonArr.stringifyItems items ++ "]"
  | .obj fields => "\x7b" ++ JsonObj.stringifyFields fields ++ "\x7d"
def JsonArr.stringifyItems : JsonArr → String
  | .nil => ""
  | .cons hd .nil => hd.stringify
  | .cons hd tl => hd.stringify ++ "," ++ JsonArr.stringifyItems tl
def JsonObj.stringifyFields : JsonObj → String
  | .nil => ""
  | .cons k v .nil => jsonQuote k ++ ":" ++ v.stringify
  | .cons k v tl => jsonQuote k ++ ":" ++ v.stringify ++ "," ++ JsonObj.stringifyFields tl
end

/-! ## Credential extraction (`extractOdooHeaders`, src/http-mcp-server.ts) -/

/-- An HTTP header value as Express delivers it: a scalar string or an
array of strings (`string | string[]`; absence is `Option.none` in the bag). -/
inductive HeaderValue where
  | scalar (s : String)
  | list (l : List String)
deriving DecidableEq

/-- A header bag: header name to optional value
(`Record<string, string | string[] | undefined>`). -/
def HeaderBag : Type := String → Option HeaderValue

/-- The `pick` helper of `extractOdooHeaders`:
`Array.isArray(v) ? v[0] : v`. Indexing an empty array gives `undefined`,
hence `List.head?`. -/
def pick : Option HeaderValue → Option String
  | none => none
  | some (.scalar s) => some s
  | some (.list l) => l.head?

/-- The normalized credential record returned by `extractOdooHeaders`. -/
structure OdooCreds where
  url : String
  database : String
  username : String
  password : String
  transport : String
deriving DecidableEq

/-- `extractOdooHeaders(headers)`: picks the four required credential
headers plus the optional transport header, and returns `null` when any
required one is `undefined` or empty (the `!url || !database || ...` check:
JavaScript falsiness of an optional string). -/
def extractOdooHeaders (headers : HeaderBag) : Option OdooCreds :=
  let url := pick (headers "x-odoo-url")
  let database := pick (headers "x-odoo-db")
  let username := pick (headers "x-odoo-username")
  let password := pick (headers "x-odoo-password")
  let transport := (pick (headers "x-odoo-transport")).getD "jsonrpc"
  match url, database, username, password with
  | some u, some d, some n, some p =>
      if u = "" ∨ d = "" ∨ n = "" ∨ p = "" then none
      else some { url := u, database := d, username := n, password := p, transport := transport }
  | _, _, _, _ => none

/-- The four required credential header names. -/
def requiredOdooHeaderKeys : List String :=
  ["x-odoo-url", "x-odoo-db", "x-odoo-username", "x-odoo-password"]

/-! ## Record sanitizer (`src/utils/odoo-sanitizer.ts`) -/

/-- `BINARY_FIELDS`: field names always dropped as large binary blobs. -/
def BINARY_FIELDS : List String :=
  ["image_1920", "image_1024", "image_512", "image_256", "image_128",
   "datas", "attachment", "content", "binary", "file", "pdf_content", "report_file"]

/-- `MAX_RECORDS = 100`. -/
def MAX_RECORDS : Int := 100

/-- `DEFAULT_LIMIT = 10`. -/
def DEFAULT_LIMIT : Int := 10

/-- `MAX_STRING_LENGTH = 5000`. -/
def MAX_STRING_LENGTH : Nat := 5000

/-- `SanitizeOptions`; every field is optional in the TypeScript interface,
defaults are applied by destructuring at the use sites. -/
structure SanitizeOptions where
  limit : Option Int := none
  fields : Option (List String) := none
  dropBinary : Option Bool := none
  normalizeRelations : Option Bool := none
  maxStringLength : Option Nat := none

/-- One character of the base64 class `[A-Za-z0-9+/]`. -/
def isBase64Char (c : Char) : Bool :=
  c.isAlphanum || c == '+' || c == '/'

/-- The regex test `/^[A-Za-z0-9+/]+=*$/.test(s)`: a non-empty run of
base64 characters followed by zero or more padding signs, covering the
whole string. -/
def base64TestFull (s : String) : Bool :=
  let cs := s.toList
  let p := cs.takeWhile isBase64Char
  decide (p ≠ []) && (cs.drop p.length).all (· == '=')

/-- `isBinary(value)`: the `Buffer`/`Uint8Array` branches cannot occur for
JSON-shaped values, so only the long-base64-string heuristic remains:
length over 1000 and the first 100 characters look base64-encoded. -/
def isBinary : Json → Bool
  | .str s => s.length > 1000 && base64TestFull (s.take 100)
  | _ => false

/-- `normalizeRelation(value)`: a `[id, name]` pair with a numeric first
component becomes `{id, name}`. The `value.length > 0 && typeof value[0]
=== 'number'` branch returns `value` itself, as does the fall-through, so
both are the catch-all here. -/
def normalizeRelation : Json → Json
  | .arr (.cons (.num i) (.cons name .nil)) =>
      .obj (.cons "id" (.num i) (.cons "name" name .nil))
  | v => v

/- `sanitizeRecord(record, options)` and its per-entry body. The JavaScript
iterates `Object.entries(record)`: for a plain object these are its fields,
for an array they are index-keyed entries (so an array input produces an
object, as in the source). Per entry:
  * skip when `dropBinary` and the key is in `BINARY_FIELDS` or the value
    looks binary;
  * `normalizeRelation` when `normalizeRelations` and the value is an
    array/object;
  * truncate over-long strings;
  * recurse into plain objects that have no `id` key.
The recursion set-up is collapsed by value shape (`sanitizeEntryValue`):
for an object value, `normalizeRelation` and truncation are both the
identity, so `processedValue` is the value itself and only the `id` check
decides recursion; for an array value, `normalizeRelation` yields an array
or an `id`-carrying object, so no recursion ever follows; a string value
can only be truncated; other scalars pass through. -/
mutual
def sanitizeRecord (options : SanitizeOptions) : Json → Json
  | .arr items => .obj (sanitizeArrEntries options 0 items)
  | .obj fields => .obj (sanitizeObjEntries options fields)
  | j => j

def sanitizeObjEntries (options : SanitizeOptions) : JsonObj → JsonObj
  | .nil => .nil
  | .cons k v tl =>
      if options.dropBinary.getD true && (BINARY_FIELDS.contains k || isBinary v) then
        sanitizeObjEntries options tl
      else
        .cons k (sanitizeEntryValue options v) (sanitizeObjEntries options tl)

def sanitizeArrEntries (options : SanitizeOptions) (i : Nat) : JsonArr → JsonObj
  | .nil => .nil
  | .cons v tl =>
      if options.dropBinary.getD true && (BINARY_FIELDS.contains (toString i) || isBinary v) then
        sanitizeArrEntries options (i + 1) tl
      else
        .cons (toString i) (sanitizeEntryValue options v) (sanitizeArrEntries options (i + 1) tl)

def sanitizeEntryValue (options : SanitizeOptions) : Json → Json
  | .obj pfields =>
      -- processedValue = the object itself; recurse unless it has an id key
      if pfields.hasKey "id" then .obj pfields
      else .obj (sanitizeObjEntries options pfields)
  | .arr items =>
      -- an array is normalized (when enabled); the result is never an
      -- id-less object, so no recursion and no truncation follow
      if options.normalizeRelations.getD true then normalizeRelation (.arr items)
      else .arr items
  | .str s =>
      let maxLen := options.maxStringLength.getD MAX_STRING_LENGTH
      if s.length > maxLen then .str (s.take maxLen ++ "... [truncated]") else .str s
  | v => v
end

/-- Insert into a JavaScript `Set` modelled as a duplicate-free list in
insertion order. -/
def jsSetAdd (l : List String) (x : String) : List String :=
  if l.contains x then l else l ++ [x]

/-- `new Set(fields)`: deduplicate preserving first occurrence. -/
def jsSetOfList (xs : List String) : List String :=
  xs.foldl jsSetAdd []

/-- The field-filtering step of `sanitizeOdooRecords`: keep only the
requested fields (plus `id`), in field-set order. `field in record` is
false for non-objects here (in JavaScript it would throw for them; the
sanitizer is only ever fed record objects). -/
def filterToFields (fieldSet : List String) (record : Json) : Json :=
  .obj (objOfList (fieldSet.filterMap fun f =>
    match record.getField f with
    | some v => some (f, v)
    | none => none))

/-- `sanitizeOdooRecords(records, options)`: cap the record count at
`min(max(1, limit), MAX_RECORDS)` (limit defaulting to `DEFAULT_LIMIT`),
optionally filter to the requested fields plus `id`, then sanitize each
record. (The `!Array.isArray(records)` guard cannot fire for a typed
list.) -/
def sanitizeOdooRecords (records : List Json) (options : SanitizeOptions) : List Json :=
  let limit := options.limit.getD DEFAULT_LIMIT
  let effectiveLimit := min (max 1 limit) MAX_RECORDS
  let limitedRecords := records.take effectiveLimit.toNat
  let limitedRecords :=
    match options.fields with
    | some fields =>
        if fields.length > 0 then
          let fieldSet := jsSetAdd (jsSetOfList fields) "id"
          limitedRecords.map (filterToFields fieldSet)
        else limitedRecords
    | none => limitedRecords
  limitedRecords.map (sanitizeRecord options)

/-- `enforceSafeLimit(limit?)`: `DEFAULT_LIMIT` when absent
(`undefined`/`null`), else clamped into `[1, MAX_RECORDS]`. -/
def enforceSafeLimit (limit : Option Int) : Int :=
  match limit with
  | none => DEFAULT_LIMIT
  | some l => min (max 1 l) MAX_RECORDS

/-! ## Tool registry and controller (`src/models/index.ts`, `src/controllers/index.ts`) -/

/-- A tool definition (`McpTool`): name, description, JSON-schema-shaped
input description. -/
structure McpTool where
  name : String
  description : String
  inputSchema : Json

/-- One registry entry: the definition plus its async handler. Handlers are
modelled as pure functions from the argument object to either a thrown
error message or a JSON-serialisable tool response. -/
structure RegisteredTool where
  definition : McpTool
  handler : Json → Except String Json

/-- `ToolRegistry`: a name-keyed map (insertion-ordered association list,
like a JavaScript `Map`). -/
structure ToolRegistry where
  tools : List (String × RegisteredTool)

/-- `ToolRegistry.hasTool(name)`. -/
def ToolRegistry.hasTool (r : ToolRegistry) (name : String) : Bool :=
  (r.tools.lookup name).isSome

/-- `ToolRegistry.getTools()`: all definitions in registry order. -/
def ToolRegistry.getTools (r : ToolRegistry) : List McpTool :=
  r.tools.map (fun kv => kv.2.definition)

/-- `ToolRegistry.executeTool(name, args)`: looks up the handler and invokes
it; throws `Tool '<name>' not found` when absent; handler-thrown errors
propagate. -/
def ToolRegistry.executeTool (r : ToolRegistry) (name : String) (args : Json) :
    Except String Json :=
  match r.tools.lookup name with
  | none => .error ("Tool " ++ singleQuote ++ name ++ singleQuote ++ " not found")
  | some t => t.handler args

/-- `McpServerController`: wraps one `ToolRegistry`. -/
structure McpServerController where
  toolRegistry : ToolRegistry

/-- `McpServerController.handleToolCall(name, args)`: `Unknown tool: <name>`
when the registry has no such tool; otherwise executes it, wrapping any
handler failure as `Tool execution failed: <message>`. -/
def McpServerController.handleToolCall (c : McpServerController) (name : String)
    (args : Json) : Except String Json :=
  if !c.toolRegistry.hasTool name then
    .error ("Unknown tool: " ++ name)
  else
    match c.toolRegistry.executeTool name args with
    | .ok r => .ok r
    | .error e => .error ("Tool execution failed: " ++ e)

/-- `McpServerController.getAvailableTools()`. -/
def McpServerController.getAvailableTools (c : McpServerController) : List McpTool :=
  c.toolRegistry.getTools

/-! ## Dispatcher environment and request/response shapes -/

/-- The environment variables consulted by `processJsonRpcRequest` and the
REST tools route (each `string | undefined`). -/
structure Env where
  MCP_MINIMAL_MODE : Option String := none
  MCP_SIMPLIFY_SCHEMA : Option String := none
  MCP_MINIMAL_MODE_AUTO : Option String := none
  MCP_SIMPLIFY_SCHEMA_AUTO : Option String := none

/-- `process.env.MCP_MINIMAL_MODE === 'true'`. -/
def Env.minimalMode (e : Env) : Bool := e.MCP_MINIMAL_MODE == some "true"

/-- `process.env.MCP_SIMPLIFY_SCHEMA === 'true'`. -/
def Env.simplifySchemaMode (e : Env) : Bool := e.MCP_SIMPLIFY_SCHEMA == some "true"

/-- `process.env.MCP_MINIMAL_MODE_AUTO === 'true'`. -/
def Env.minimalModeAuto (e : Env) : Bool := e.MCP_MINIMAL_MODE_AUTO == some "true"

/-- `process.env.MCP_SIMPLIFY_SCHEMA_AUTO === 'true'`. -/
def Env.simplifySchemaAuto (e : Env) : Bool := e.MCP_SIMPLIFY_SCHEMA_AUTO == some "true"

/-- The `params` member of a JSON-RPC request as the dispatcher reads it
(`params?.name`, `params?.arguments`). -/
structure RpcParams where
  name : Option String := none
  arguments : Option Json := none

/-- A JSON-RPC request as `processJsonRpcRequest` receives it: the parsed
body (`method`, `params`, `id`) merged with the transport's header bag.
An absent `id` is `none` (and is then dropped by `JSON.stringify`). -/
structure JsonRpcRequest where
  method : String
  params : Option RpcParams := none
  id : Option Json := none
  headers : HeaderBag := fun _ => none

/-- The body of a JSON-RPC response: a `result` value or an
`error {code, message}` object. -/
inductive JsonRpcOutcome where
  | result (r : Json)
  | error (code : Int) (message : String)

/-- A JSON-RPC response envelope (`jsonrpc: '2.0'` implicit, plus the
request id echoed back). -/
structure JsonRpcResponse where
  outcome : JsonRpcOutcome
  id : Option Json

/-- Does a substring occur in `s`? (used for the user-agent sniffs; valid
for non-empty needles). -/
def hasSubstr (s pat : String) : Bool :=
  (s.splitOn pat).length > 1

/-- The user-agent sniff in `tools/list`:
`(request?.headers?.['user-agent']) || ''`, then
`typeof ua === 'string' && ua.toLowerCase().includes('openai-mcp')`.
An array-valued header fails the `typeof` check; an absent one yields `''`
which contains no needle. -/
def uaIsOpenAiMcp (headers : HeaderBag) : Bool :=
  match headers "user-agent" with
  | some (.scalar s) => hasSubstr s.toLower "openai-mcp"
  | _ => false

/-- The minimal-mode allow-list: `['echo', 'odoo_version']`. -/
def minimalAllowList : List String := ["echo", "odoo_version"]

/-- `t.inputSchema.properties[k]` rewrite condition of the
schema-simplification filter:
`v && v.type === 'array' && v.items && v.items.anyOf`. -/
def propIsUnionArray (v : Json) : Bool :=
  v.truthy &&
  (match v.getField "type" with
   | some (.str t) => t == "array"
   | _ => false) &&
  (match v.getField "items" with
   | some items =>
       items.truthy &&
       (match items.getField "anyOf" with
        | some a => a.truthy
        | none => false)
   | none => false)

/-- The replacement property: an array of flat primitive types, keeping the
description (or `'Array'` when the original description is falsy). -/
def flatArrayProp (v : Json) : Json :=
  .obj (objOfList
    [("type", .str "array"),
     ("items", .obj (objOfList
        [("type", .arr (arrOfList
           [.str "string", .str "number", .str "boolean", .str "array", .str "null"]))])),
     ("description",
       match v.getField "description" with
       | some d => if d.truthy then d else .str "Array"
       | none => .str "Array")])

/-- Rewrite the `properties` map of a schema, replacing union-typed array
properties. -/
def simplifyProps : JsonObj → JsonObj
  | .nil => .nil
  | .cons k v tl =>
      .cons k (if propIsUnionArray v then flatArrayProp v else v) (simplifyProps tl)

/-- The schema-simplification filter applied per tool: a no-op unless the
schema is truthy and carries a truthy object `properties` member. (The
source mutates a shallow copy in place; the pure rewrite replaces only the
`properties` binding.) -/
def simplifyToolSchema (t : McpTool) : McpTool :=
  if !t.inputSchema.truthy then t
  else
    match t.inputSchema with
    | .obj fields =>
        match fields.lookup "properties" with
        | some (.obj props) =>
            if (Json.obj props).truthy then
              { t with inputSchema := .obj (replaceProps fields (simplifyProps props)) }
            else t
        | _ => t
    | _ => t
where
  /-- replace the `properties` binding, keeping key order -/
  replaceProps : JsonObj → JsonObj → JsonObj
    | .nil, _ => .nil
    | .cons k v tl, newProps =>
        if k = "properties" then .cons k (.obj newProps) tl
        else .cons k v (replaceProps tl newProps)

/-- Serialise a tool definition for a `tools/list` result. -/
def toolToJson (t : McpTool) : Json :=
  .obj (objOfList
    [("name", .str t.name), ("description", .str t.description),
     ("inputSchema", t.inputSchema)])

/-! ## JSON-RPC dispatcher (`HttpMcpServer.processJsonRpcRequest`) -/

/-- The `initialize` result: fixed capability/version descriptor plus the
mode flags. -/
def initializeResult (env : Env) : Json :=
  .obj (objOfList
    [("protocolVersion", .str "2024-11-05"),
     ("capabilities", .obj (objOfList
        [("tools", .obj (objOfList
           [("list", .bool true), ("call", .bool true),
            ("jsonSchema", .bool true), ("batch", .bool true)])),
         ("batch", .bool true)])),
     ("serverInfo", .obj (objOfList
        [("name", .str "odoo-mcp-http-server"), ("version", .str "1.0.0")])),
     ("modes", .obj (objOfList
        [("minimal", .bool env.minimalMode),
         ("simplifiedSchema", .bool env.simplifySchemaMode)]))])

/-- The `tools/list` result `{ tools: transformed }`: the controller's tools
through the two independent shaping filters (minimal-mode allow-list and
schema simplification), each enabled by its explicit env flag or by its
auto flag combined with the `openai-mcp` user-agent sniff. (The inner
`try/catch` that returns `-32001` guards `getAvailableTools`, which cannot
throw in this model.) -/
def toolsListResult (env : Env) (controller : McpServerController)
    (headers : HeaderBag) : Json :=
  let tools := controller.getAvailableTools
  let openaiClient := uaIsOpenAiMcp headers
  let transformed :=
    if env.minimalMode || (openaiClient && env.minimalModeAuto) then
      tools.filter (fun t => minimalAllowList.contains t.name)
    else tools
  let transformed :=
    if env.simplifySchemaMode || (openaiClient && env.simplifySchemaAuto) then
      transformed.map simplifyToolSchema
    else transformed
  .obj (objOfList [("tools", .arr (arrOfList (transformed.map toolToJson)))])

/-- `params?.arguments || {}`: a falsy (or absent) argument value becomes
the empty object. -/
def jsArgsOrEmpty (args : Option Json) : Json :=
  match args with
  | some a => if a.truthy then a else .obj .nil
  | none => .obj .nil

/-- The serialised success envelope whose byte size the dispatcher
measures: `JSON.stringify({ jsonrpc: '2.0', result, id })` (an `undefined`
id is dropped by `JSON.stringify`). -/
def rpcResultEnvelope (result : Json) (id : Option Json) : Json :=
  .obj (objOfList
    ([("jsonrpc", Json.str "2.0"), ("result", result)] ++
     (match id with
      | some j => [("id", j)]
      | none => [])))

/-- `sizeKB.toFixed(1)` for `sizeKB = bytes / 1024`: the quotient is exactly
representable as a double (`bytes < 2^53`), and `toFixed(1)` picks the
nearest tenth, ties towards the larger value, printed with one decimal. -/
def sizeKBtoFixed1 (bytes : Nat) : String :=
  let tenths := (bytes * 10 + 512) / 1024
  toString (tenths / 10) ++ "." ++ toString (tenths % 10)

/-- The `ResponseTooLarge` message:
`Response too large (<sizeKB>KB). Try reducing 'limit' parameter or
selecting fewer fields.` -/
def responseTooLargeMessage (bytes : Nat) : String :=
  "Response too large (" ++ sizeKBtoFixed1 bytes ++ "KB). Try reducing " ++
    singleQuote ++ "limit" ++ singleQuote ++ " parameter or selecting fewer fields."

/-- The `try` body of `processJsonRpcRequest`: dispatch on the method name.
A thrown error (`Tool name is required`, or anything a tool call throws)
is an `Except.error` here and is converted by the `catch` in
`processJsonRpcRequest`. The response-size guard rejects when
`sizeKB > 1024`, i.e. when the serialised envelope exceeds
`1024 * 1024 = 1048576` bytes. -/
def processJsonRpcBody (env : Env) (global : McpServerController)
    (request : JsonRpcRequest) (sessionController : Option McpServerController) :
    Except String JsonRpcResponse :=
  let controller := sessionController.getD global
  match request.method with
  | "initialize" =>
      .ok { outcome := .result (initializeResult env), id := request.id }
  | "tools/list" =>
      .ok { outcome := .result (toolsListResult env controller request.headers),
            id := request.id }
  | "tools/call" =>
      let toolName := request.params.bind RpcParams.name
      let toolArgs := jsArgsOrEmpty (request.params.bind RpcParams.arguments)
      match toolName with
      | none => .error "Tool name is required"
      | some n =>
          if n = "" then .error "Tool name is required"
          else
            match controller.handleToolCall n toolArgs with
            | .error e => .error e
            | .ok result =>
                let responseJson := Json.stringify (rpcResultEnvelope result request.id)
                let sizeBytes := responseJson.utf8ByteSize
                if 1048576 < sizeBytes then
                  .ok { outcome := .error (-32000) (responseTooLargeMessage sizeBytes),
                        id := request.id }
                else
                  .ok { outcome := .result result, id := request.id }
  | m =>
      .ok { outcome := .error (-32601) ("Method not found: " ++ m), id := request.id }

/-- `processJsonRpcRequest(request, sessionController?)`: the `try` body
with its `catch`, which converts any thrown error into a structured
`-32000` JSON-RPC error response. The function is total: no exception
escapes the dispatch boundary. -/
def processJsonRpcRequest (env : Env) (global : McpServerController)
    (request : JsonRpcRequest) (sessionController : Option McpServerController := none) :
    JsonRpcResponse :=
  match processJsonRpcBody env global request sessionController with
  | .ok r => r
  | .error msg => { outcome := .error (-32000) msg, id := request.id }

/-! ## Batch endpoint (`POST /mcp/batch`) -/

/-- One item of the batch body `{ tools: [{name, args}, ...] }`. -/
structure BatchItem where
  name : String
  args : Option Json := none

/-- One per-item entry of the batch response: tool name, fulfilled flag,
the result when fulfilled, the rejection message otherwise. -/
structure BatchItemResult where
  tool : String
  success : Bool
  result : Option Json
  error : Option String

/-- The HTTP response of the batch endpoint: status code, envelope
`success` flag and per-item results (the error body of the non-array case
carries no items). -/
structure BatchHttpResponse where
  status : Nat
  success : Bool
  results : List BatchItemResult

/-- The per-item execution: `handleToolCall(name, args || {})` through
`Promise.allSettled`, then mapped to `{tool, success, result?, error?}`. -/
def batchItemResult (c : McpServerController) (item : BatchItem) : BatchItemResult :=
  match c.handleToolCall item.name (jsArgsOrEmpty item.args) with
  | .ok r => { tool := item.name, success := true, result := some r, error := none }
  | .error e => { tool := item.name, success := false, result := none, error := some e }

/-- The `POST /mcp/batch` handler: rejects a body whose `tools` member is
not an array with HTTP 400, otherwise settles every item (individual
failures never reject the batch) and answers HTTP 200 with
`success: true` and the per-item entries in input order. -/
def handleMcpBatch (c : McpServerController) (tools : Option (List BatchItem)) :
    BatchHttpResponse :=
  match tools with
  | none => { status := 400, success := false, results := [] }
  | some items => { status := 200, success := true, results := items.map (batchItemResult c) }

/-! ## Session store and lifecycle (`HttpMcpServer` sessions) -/

/-- One entry of the `sessions` map: creation time plus the optional
dedicated controller. Controller instances are identified by their
allocation number (`new McpServerController()` allocates a fresh one);
the `state: {}` member carries no information and is omitted. -/
structure SessionEntry where
  createdAt : Nat
  controller : Option Nat
deriving DecidableEq

/-- `Map.set` on an insertion-ordered association list with natural-number
keys (the session ids; fresh UUIDs are modelled by an allocation counter). -/
def jsMapSet (m : List (Nat × SessionEntry)) (k : Nat) (v : SessionEntry) :
    List (Nat × SessionEntry) :=
  match m with
  | [] => [(k, v)]
  | (k', v') :: rest => if k' = k then (k, v) :: rest else (k', v') :: jsMapSet rest k v

/-- `Map.get` / `Map.has` on the same representation. -/
def jsMapLookup (m : List (Nat × SessionEntry)) (k : Nat) : Option SessionEntry :=
  match m with
  | [] => none
  | (k', v') :: rest => if k' = k then some v' else jsMapLookup rest k

/-- `Map.delete`. -/
def jsMapDelete (m : List (Nat × SessionEntry)) (k : Nat) : List (Nat × SessionEntry) :=
  match m with
  | [] => []
  | (k', v') :: rest => if k' = k then rest else (k', v') :: jsMapDelete rest k

/-- The whole server-side session state: the allocation counter for
controller instances, the process-global controller's instance id (allocated
in the constructor), the session-id generator counter, and the session map. -/
structure ServerState where
  nextCtrlId : Nat
  globalCtrl : Nat
  nextSid : Nat
  sessions : List (Nat × SessionEntry)

/-- State after `new HttpMcpServer(...)`: the global controller is the
first allocation, the session map is empty. -/
def initialServerState : ServerState :=
  { nextCtrlId := 1, globalCtrl := 0, nextSid := 0, sessions := [] }

/-- A record of one attempted `handleToolCall('odoo_connect', creds)`
during session creation: which controller instance it was attempted on and
with which argument record. -/
structure ConnectAttempt where
  controller : Nat
  tool : String
  args : OdooCreds
deriving DecidableEq

/-- `createSessionWithHeaders(sessionId, headers)`: extract credentials
from the header bag; on success instantiate a dedicated controller and
attempt exactly one `odoo_connect` call on it with the extracted record
(`connectOutcome` is the oracle for that call — success or thrown error —
and is swallowed by the `try/catch`, so it affects nothing); in every case
store the session entry, with the controller attached exactly when
credentials resolved. Returns the new state and the list of attempted
connect calls. -/
def createSessionWithHeaders (s : ServerState) (sessionId : Nat) (headers : HeaderBag)
    (connectOutcome : Except String Json) (now : Nat) :
    ServerState × List ConnectAttempt :=
  match extractOdooHeaders headers with
  | some creds =>
      let ctrlId := s.nextCtrlId
      let _ := connectOutcome   -- caught and only logged, whatever it is
      ({ s with nextCtrlId := ctrlId + 1,
                sessions := jsMapSet s.sessions sessionId
                  { createdAt := now, controller := some ctrlId } },
       [{ controller := ctrlId, tool := "odoo_connect", args := creds }])
  | none =>
      ({ s with sessions := jsMapSet s.sessions sessionId
                  { createdAt := now, controller := none } },
       [])

/-- The session-store-relevant operations of the HTTP transport:
`initialize` (fresh session id via `generateSessionId`, then
`createSessionWithHeaders`), any tool call (reads the map, never writes
it), and `DELETE /mcp` (removes the entry when present, 404 otherwise). -/
inductive SessionOp where
  | initSession (headers : HeaderBag) (connectOutcome : Except String Json) (now : Nat)
  | toolCall
  | terminate (sessionId : Nat)

/-- One step of the session store. -/
def applyOp (s : ServerState) : SessionOp → ServerState
  | .initSession headers connectOutcome now =>
      let sid := s.nextSid
      let s' := { s with nextSid := s.nextSid + 1 }
      (createSessionWithHeaders s' sid headers connectOutcome now).1
  | .toolCall => s
  | .terminate sid =>
      if (jsMapLookup s.sessions sid).isSome then
        { s with sessions := jsMapDelete s.sessions sid }
      else s

/-- A whole history of operations. -/
def applyOps (s : ServerState) (ops : List SessionOp) : ServerState :=
  ops.foldl applyOp s

/-- The inductive invariant of the session store: session-map keys are
unique and below the session-id counter, the global controller and every
session-held controller instance are below the allocation counter, every
session-held controller was allocated after the global one, and no two
sessions hold the same controller instance. -/
structure SessionStoreInv (s : ServerState) : Prop where
  keys_nodup : (s.sessions.map Prod.fst).Nodup
  global_lt : s.globalCtrl < s.nextCtrlId
  sid_lt : ∀ sid e, jsMapLookup s.sessions sid = some e → sid < s.nextSid
  ctrl_lt : ∀ sid e c, jsMapLookup s.sessions sid = some e →
      e.controller = some c → c < s.nextCtrlId
  ctrl_gt_global : ∀ sid e c, jsMapLookup s.sessions sid = some e →
      e.controller = some c → s.globalCtrl < c
  ctrl_inj : ∀ sid1 sid2 e1 e2 c, jsMapLookup s.sessions sid1 = some e1 →
      jsMapLookup s.sessions sid2 = some e2 →
      e1.controller = some c → e2.controller = some c → sid1 = sid2

/-! ## Helper lemmas -/

theorem pick_map_scalar (o : Option String) : pick (o.map HeaderValue.scalar) = o := by
  cases o <;> rfl

theorem pick_map_singleton (o : Option String) :
    pick (o.map (fun s => HeaderValue.list [s])) = o := by
  cases o <;> rfl

theorem jsMapLookup_set_self (m : List (Nat × SessionEntry)) (k : Nat) (v : SessionEntry) :
    jsMapLookup (jsMapSet m k v) k = some v := by
  induction m with
  | nil => simp [jsMapSet, jsMapLookup]
  | cons hd tl ih =>
      obtain ⟨k', v'⟩ := hd
      by_cases h : k' = k <;> simp [jsMapSet, jsMapLookup, h, ih]

theorem jsMapLookup_set_ne (m : List (Nat × SessionEntry)) (k k' : Nat) (v : SessionEntry)
    (h : k' ≠ k) : jsMapLookup (jsMapSet m k v) k' = jsMapLookup m k' := by
  induction m with
  | nil =>
      have hne : ¬ k = k' := fun h' => h h'.symm
      simp [jsMapSet, jsMapLookup, hne]
  | cons hd tl ih =>
      obtain ⟨k1, v1⟩ := hd
      by_cases h1 : k1 = k
      · subst h1
        have hne : ¬ k1 = k' := fun h' => h h'.symm
        simp [jsMapSet, jsMapLookup, hne]
      · simp only [jsMapSet, if_neg h1]
        by_cases h2 : k1 = k' <;> simp [jsMapLookup, h2, ih]

/-! ## Claim theorems: credential extraction -/

/-- C6: for every header bag in which any one of the four required
credential headers (url, database, username, password) is absent, resolves
to an empty string, or is an empty array, `extractOdooHeaders` returns
`null` — never a partial record; in particular an empty-array header value
maps to "missing", not to the empty string. -/
theorem claim_C6_required_header_missing_or_empty_yields_null
    (headers : HeaderBag) (k : String)
    (hk : k ∈ requiredOdooHeaderKeys)
    (h : headers k = none ∨ headers k = some (.scalar "") ∨ headers k = some (.list [])) :
    extractOdooHeaders headers = none := by
  have hp : pick (headers k) = none ∨ pick (headers k) = some "" := by
    rcases h with h | h | h <;> simp [h, pick]
  simp only [requiredOdooHeaderKeys, List.mem_cons, List.mem_singleton,
    List.not_mem_nil, or_false] at hk
  rcases hk with rfl | rfl | rfl | rfl
  · rcases hp with hp | hp <;>
      rcases hd : pick (headers "x-odoo-db") with _ | d <;>
      rcases hn : pick (headers "x-odoo-username") with _ | n <;>
      rcases hw : pick (headers "x-odoo-password") with _ | p <;>
      simp [extractOdooHeaders, hp, hd, hn, hw]
  · rcases hp with hp | hp <;>
      rcases hu : pick (headers "x-odoo-url") with _ | u <;>
      rcases hn : pick (headers "x-odoo-username") with _ | n <;>
      rcases hw : pick (headers "x-odoo-password") with _ | p <;>
      simp [extractOdooHeaders, hp, hu, hn, hw]
  · rcases hp with hp | hp <;>
      rcases hu : pick (headers "x-odoo-url") with _ | u <;>
      rcases hd : pick (headers "x-odoo-db") with _ | d <;>
      rcases hw : pick (headers "x-odoo-password") with _ | p <;>
      simp [extractOdooHeaders, hp, hu, hd, hw]
  · rcases hp with hp | hp <;>
      rcases hu : pick (headers "x-odoo-url") with _ | u <;>
      rcases hd : pick (headers "x-odoo-db") with _ | d <;>
      rcases hn : pick (headers "x-odoo-username") with _ | n <;>
      simp [extractOdooHeaders, hp, hu, hd, hn]

/-- Witness for C6 at a concrete input: a bag carrying only an empty-array
url header (and no other headers) is rejected. -/
theorem claim_C6_witness :
    extractOdooHeaders
      (fun k => if k = "x-odoo-url" then some (.list []) else none) = none :=
  claim_C6_required_header_missing_or_empty_yields_null
    (fun k => if k = "x-odoo-url" then some (.list []) else none)
    "x-odoo-url" (by decide) (Or.inr (Or.inr (by simp)))

/-- C7: whenever all required credential headers are present,
`extractOdooHeaders` returns the identical normalized record whether each
value is given as a scalar string or as a single-element array of that
string (the first array element is taken); and the record's transport
field equals the provided transport header value verbatim when one is
given, else the fixed default `jsonrpc`. -/
theorem claim_C7_scalar_array_equivalence_and_transport
    (vals : String → Option String) (headers : HeaderBag) (creds : OdooCreds)
    (hx : extractOdooHeaders headers = some creds) :
    extractOdooHeaders (fun k => (vals k).map HeaderValue.scalar) =
      extractOdooHeaders (fun k => (vals k).map (fun s => HeaderValue.list [s])) ∧
    (headers "x-odoo-transport" = none → creds.transport = "jsonrpc") ∧
    (∀ t, pick (headers "x-odoo-transport") = some t → creds.transport = t) := by
  have htrans : creds.transport = (pick (headers "x-odoo-transport")).getD "jsonrpc" := by
    rcases hu : pick (headers "x-odoo-url") with _ | u <;>
      rcases hd : pick (headers "x-odoo-db") with _ | d <;>
      rcases hn : pick (headers "x-odoo-username") with _ | n <;>
      rcases hw : pick (headers "x-odoo-password") with _ | p <;>
      simp [extractOdooHeaders, hu, hd, hn, hw] at hx
    rw [← hx.2]
  refine ⟨?_, ?_, ?_⟩
  · simp [extractOdooHeaders, pick_map_scalar, pick_map_singleton]
  · intro h
    rw [htrans, h]
    rfl
  · intro t ht
    rw [htrans, ht]
    rfl

/-- Witness for C7 at a concrete input: scalar and single-element-array
bags extract identically, and a concrete bag with no transport header gets
the `jsonrpc` default. -/
theorem claim_C7_witness :
    (extractOdooHeaders
        (fun k => ((fun key => if key = "x-odoo-url" then some "u" else
            if key = "x-odoo-db" then some "d" else
            if key = "x-odoo-username" then some "n" else
            if key = "x-odoo-password" then some "p" else none) k).map HeaderValue.scalar) =
      extractOdooHeaders
        (fun k => ((fun key => if key = "x-odoo-url" then some "u" else
            if key = "x-odoo-db" then some "d" else
            if key = "x-odoo-username" then some "n" else
            if key = "x-odoo-password" then some "p" else none) k).map
              (fun s => HeaderValue.list [s]))) ∧
    ({ url := "u", database := "d", username := "n", password := "p",
       transport := "jsonrpc" : OdooCreds }).transport = "jsonrpc" := by
  have h := claim_C7_scalar_array_equivalence_and_transport
    (fun key => if key = "x-odoo-url" then some "u" else
        if key = "x-odoo-db" then some "d" else
        if key = "x-odoo-username" then some "n" else
        if key = "x-odoo-password" then some "p" else none)
    (fun key => if key = "x-odoo-url" then some (.scalar "u") else
        if key = "x-odoo-db" then some (.scalar "d") else
        if key = "x-odoo-username" then some (.scalar "n") else
        if key = "x-odoo-password" then some (.scalar "p") else none)
    { url := "u", database := "d", username := "n", password := "p", transport := "jsonrpc" }
    (by decide)
  exact ⟨h.1, h.2.1 (by decide)⟩

/-! ## Claim theorems: sanitizer limits -/

/-- C10: for every input record array and every limit option, the record
sanitizer returns at most `min(max(1, limit), 100)` records (at most 10
when no limit is given), and `enforceSafeLimit` always returns a value in
the inclusive range `[1, 100]`, mapping an absent limit to 10. -/
theorem claim_C10_sanitizer_record_and_limit_bounds
    (records : List Json) (options : SanitizeOptions) (l : Option Int) :
    (sanitizeOdooRecords records options).length ≤
       (min (max 1 (options.limit.getD DEFAULT_LIMIT)) MAX_RECORDS).toNat ∧
    (options.limit = none → (sanitizeOdooRecords records options).length ≤ 10) ∧
    1 ≤ enforceSafeLimit l ∧ enforceSafeLimit l ≤ 100 ∧ enforceSafeLimit none = 10 := by
  have hlen : (sanitizeOdooRecords records options).length ≤
      (min (max 1 (options.limit.getD DEFAULT_LIMIT)) MAX_RECORDS).toNat := by
    unfold sanitizeOdooRecords
    cases hf : options.fields with
    | none => simp [List.length_take]
    | some fs =>
        by_cases h : fs.length > 0 <;> simp [h, List.length_take]
  refine ⟨hlen, ?_, ?_, ?_, ?_⟩
  · intro hnone
    have : (min (max 1 (options.limit.getD DEFAULT_LIMIT)) MAX_RECORDS).toNat = 10 := by
      rw [hnone]; rfl
    calc (sanitizeOdooRecords records options).length
        ≤ (min (max 1 (options.limit.getD DEFAULT_LIMIT)) MAX_RECORDS).toNat := hlen
      _ = 10 := this
  · cases l with
    | none => simp [enforceSafeLimit, DEFAULT_LIMIT]
    | some x =>
        simp only [enforceSafeLimit, MAX_RECORDS]
        exact le_min (le_max_left 1 x) (by norm_num)
  · cases l with
    | none => simp [enforceSafeLimit, DEFAULT_LIMIT]
    | some x =>
        simp only [enforceSafeLimit, MAX_RECORDS]
        exact min_le_right _ _
  · rfl

/-- Witness for C10: the default limit at a concrete three-record input
(the implication hypothesis `options.limit = none` is discharged at `{}`). -/
theorem claim_C10_witness :
    (sanitizeOdooRecords [Json.null, Json.null, Json.null] {}).length ≤ 10 :=
  (claim_C10_sanitizer_record_and_limit_bounds
      [Json.null, Json.null, Json.null] {} none).2.1 rfl

/-! ## Claim theorems: controller resolution -/

/-- C2: for every dispatched request, the controller whose methods the
dispatcher invokes is exactly the explicit controller override when one is
supplied — the process-global controller is never consulted in that case
(the response does not depend on it at all) — and is exactly the
process-global controller when no override is supplied. -/
theorem claim_C2_controller_override_resolution
    (env : Env) (g g2 c : McpServerController) (req : JsonRpcRequest) :
    processJsonRpcRequest env g req (some c) = processJsonRpcRequest env g2 req (some c) ∧
    processJsonRpcRequest env g req none = processJsonRpcRequest env g req (some g) :=
  ⟨rfl, rfl⟩

/-! ## Claim theorems: dispatcher error isolation -/

/-- C1: `processJsonRpcRequest` is total (no exception escapes the dispatch
boundary — every outcome is a structured JSON-RPC response value), and:
an unrecognized method yields a `-32601` error; a `tools/call` with
`params.name` absent (or falsy) yields the structured `-32000`
`Tool name is required` error; and a `tools/call` naming a tool that is
not registered in the resolved controller's registry yields the structured
`-32000` `Unknown tool` error. -/
theorem claim_C1_dispatcher_error_isolation
    (env : Env) (g : McpServerController) (req : JsonRpcRequest)
    (sc : Option McpServerController) :
    (req.method ∉ (["initialize", "tools/list", "tools/call"] : List String) →
       processJsonRpcRequest env g req sc =
         { outcome := .error (-32601) ("Method not found: " ++ req.method), id := req.id }) ∧
    (req.method = "tools/call" → (req.params.bind RpcParams.name).getD "" = "" →
       processJsonRpcRequest env g req sc =
         { outcome := .error (-32000) "Tool name is required", id := req.id }) ∧
    (∀ n, req.method = "tools/call" → req.params.bind RpcParams.name = some n → n ≠ "" →
       (sc.getD g).toolRegistry.hasTool n = false →
       processJsonRpcRequest env g req sc =
         { outcome := .error (-32000) ("Unknown tool: " ++ n), id := req.id }) := by
  refine ⟨?_, ?_, ?_⟩
  · intro h
    simp only [List.mem_cons, List.mem_singleton, List.not_mem_nil, or_false,
      not_or] at h
    obtain ⟨h1, h2, h3⟩ := h
    have hbody : processJsonRpcBody env g req sc =
        .ok { outcome := .error (-32601) ("Method not found: " ++ req.method),
              id := req.id } := by
      unfold processJsonRpcBody
      split
      · next heq => exact absurd heq h1
      · next heq => exact absurd heq h2
      · next heq => exact absurd heq h3
      · rfl
    unfold processJsonRpcRequest
    rw [hbody]
  · intro hm hempty
    rcases hb : req.params.bind RpcParams.name with _ | n
    · simp [processJsonRpcRequest, processJsonRpcBody, hm, hb]
    · rw [hb] at hempty
      simp only [Option.getD_some] at hempty
      simp [processJsonRpcRequest, processJsonRpcBody, hm, hb, hempty]
  · intro n hm hb hne hreg
    simp [processJsonRpcRequest, processJsonRpcBody, hm, hb, hne,
      McpServerController.handleToolCall, hreg]

/-- Witness for C1: a `tools/call` against an empty registry with an
unregistered tool name produces the structured `Unknown tool` error. -/
theorem claim_C1_witness :
    processJsonRpcRequest {} { toolRegistry := { tools := [] } }
      { method := "tools/call",
        params := some { name := some "nope", arguments := none } } none =
      { outcome := .error (-32000) ("Unknown tool: " ++ "nope"), id := none } :=
  (claim_C1_dispatcher_error_isolation {} { toolRegistry := { tools := [] } }
      { method := "tools/call", params := some { name := some "nope", arguments := none } }
      none).2.2 "nope" rfl rfl (by decide) rfl

/-! ## Claim theorems: response-size guard -/

/-- C5: for every `tools/call` whose tool executes successfully, if the
serialized JSON-RPC result envelope exceeds the fixed threshold of 1024 KB
(`sizeKB > 1024`, i.e. more than `1048576` bytes) the dispatcher returns
the `-32000` `ResponseTooLarge` protocol error advising the caller to
reduce the requested volume, and the oversized result is discarded — the
returned response is exactly that error object, carrying no result; for
every result at or under the threshold, the result is returned unmodified. -/
theorem claim_C5_response_size_guard
    (env : Env) (g : McpServerController) (req : JsonRpcRequest)
    (sc : Option McpServerController) (n : String) (r : Json)
    (hm : req.method = "tools/call")
    (hb : req.params.bind RpcParams.name = some n)
    (hne : n ≠ "")
    (hexec : (sc.getD g).handleToolCall n
        (jsArgsOrEmpty (req.params.bind RpcParams.arguments)) = .ok r) :
    (1048576 < (Json.stringify (rpcResultEnvelope r req.id)).utf8ByteSize →
       processJsonRpcRequest env g req sc =
         { outcome := .error (-32000) (responseTooLargeMessage
             ((Json.stringify (rpcResultEnvelope r req.id)).utf8ByteSize)),
           id := req.id }) ∧
    ((Json.stringify (rpcResultEnvelope r req.id)).utf8ByteSize ≤ 1048576 →
       processJsonRpcRequest env g req sc = { outcome := .result r, id := req.id }) := by
  constructor
  · intro hbig
    simp [processJsonRpcRequest, processJsonRpcBody, hm, hb, hne, hexec, hbig]
  · intro hsmall
    have hnotbig : ¬ 1048576 < (Json.stringify (rpcResultEnvelope r req.id)).utf8ByteSize :=
      not_lt.mpr hsmall
    simp [processJsonRpcRequest, processJsonRpcBody, hm, hb, hne, hexec, hnotbig]

/-- Witness for C5: a small result from a one-tool registry passes through
unmodified (the under-threshold branch at a concrete input). -/
theorem claim_C5_witness :
    processJsonRpcRequest {}
      { toolRegistry := { tools :=
          [("t", { definition := { name := "t", description := "", inputSchema := .null },
                   handler := fun _ => .ok (.str "hi") })] } }
      { method := "tools/call",
        params := some { name := some "t", arguments := none },
        id := some (.num 1) } none =
      { outcome := .result (.str "hi"), id := some (.num 1) } :=
  (claim_C5_response_size_guard {}
      { toolRegistry := { tools :=
          [("t", { definition := { name := "t", description := "", inputSchema := .null },
                   handler := fun _ => .ok (.str "hi") })] } }
      { method := "tools/call",
        params := some { name := some "t", arguments := none },
        id := some (.num 1) }
      none "t" (.str "hi") rfl rfl (by decide) rfl).2 (by decide)

/-! ## Claim theorems: batch endpoint -/

/-- C8: for every batch request whose body carries an array of N items
`{name, args}`, the batch endpoint executes all N tool calls and returns
exactly N result entries in input order, each independently marked success
(carrying the tool result) or failure (carrying the error message), and
the HTTP envelope reports success (status 200, `success: true`) even when
some or all items fail. -/
theorem claim_C8_batch_per_item_settlement
    (c : McpServerController) (items : List BatchItem) :
    (handleMcpBatch c (some items)).status = 200 ∧
    (handleMcpBatch c (some items)).success = true ∧
    (handleMcpBatch c (some items)).results.length = items.length ∧
    (∀ (i : Nat) (item : BatchItem), items[i]? = some item →
       (handleMcpBatch c (some items)).results[i]? = some (batchItemResult c item)) ∧
    (∀ item r, c.handleToolCall item.name (jsArgsOrEmpty item.args) = .ok r →
       batchItemResult c item =
         { tool := item.name, success := true, result := some r, error := none }) ∧
    (∀ item e, c.handleToolCall item.name (jsArgsOrEmpty item.args) = .error e →
       batchItemResult c item =
         { tool := item.name, success := false, result := none, error := some e }) := by
  refine ⟨rfl, rfl, by simp [handleMcpBatch], ?_, ?_, ?_⟩
  · intro i item h
    simp [handleMcpBatch, List.getElem?_map, h]
  · intro item r h
    simp [batchItemResult, h]
  · intro item e h
    simp [batchItemResult, h]

/-- Witness for C8: a two-item batch (one registered tool, one unknown
name) at a concrete controller: both per-item entries are produced, in
order, with independent success and failure markings. -/
theorem claim_C8_witness :
    ((handleMcpBatch
        { toolRegistry := { tools :=
            [("t", { definition := { name := "t", description := "", inputSchema := .null },
                     handler := fun _ => .ok (.str "hi") })] } }
        (some [{ name := "t" }, { name := "nope" }])).results[0]? =
      some { tool := "t", success := true, result := some (.str "hi"), error := none }) ∧
    ((handleMcpBatch
        { toolRegistry := { tools :=
            [("t", { definition := { name := "t", description := "", inputSchema := .null },
                     handler := fun _ => .ok (.str "hi") })] } }
        (some [{ name := "t" }, { name := "nope" }])).results[1]? =
      some { tool := "nope", success := false, result := none,
             error := some ("Unknown tool: " ++ "nope") }) := by
  have h := claim_C8_batch_per_item_settlement
    { toolRegistry := { tools :=
        [("t", { definition := { name := "t", description := "", inputSchema := .null },
                 handler := fun _ => .ok (.str "hi") })] } }
    [{ name := "t" }, { name := "nope" }]
  constructor
  · rw [h.2.2.2.1 0 { name := "t" } rfl,
      h.2.2.2.2.1 { name := "t" } (.str "hi") rfl]
  · rw [h.2.2.2.1 1 { name := "nope" } rfl,
      h.2.2.2.2.2 { name := "nope" } ("Unknown tool: " ++ "nope") rfl]

/-! ## Claim theorems: minimal-mode filter -/

/-- C9: for every `tools/list` request with minimal mode enabled (by the
explicit flag, or by the auto flag combined with the `openai-mcp`
user-agent sniff) and schema simplification off, the returned tool list is
exactly those tools of the resolved controller's full tool set whose names
lie in the fixed allow-list `{echo, odoo_version}`; and `tools/call`
behavior does not depend on the environment flags driving this filter at
all. -/
theorem claim_C9_minimal_mode_filter
    (env : Env) (g : McpServerController) (req : JsonRpcRequest)
    (sc : Option McpServerController)
    (hm : req.method = "tools/list")
    (hmin : (env.minimalMode || (uaIsOpenAiMcp req.headers && env.minimalModeAuto)) = true)
    (hsimp : (env.simplifySchemaMode ||
        (uaIsOpenAiMcp req.headers && env.simplifySchemaAuto)) = false) :
    processJsonRpcRequest env g req sc =
      { outcome := .result (.obj (objOfList [("tools",
          .arr (arrOfList (((sc.getD g).getAvailableTools.filter
              (fun t => minimalAllowList.contains t.name)).map toolToJson)))])),
        id := req.id } ∧
    (∀ env1 env2 req2 sc2, req2.method = "tools/call" →
       processJsonRpcRequest env1 g req2 sc2 = processJsonRpcRequest env2 g req2 sc2) := by
  constructor
  · simp [processJsonRpcRequest, processJsonRpcBody, hm, toolsListResult, hmin, hsimp]
  · intro env1 env2 req2 sc2 hm2
    unfold processJsonRpcRequest processJsonRpcBody
    rw [hm2]
    rfl

/-- Witness for C9: with the explicit minimal-mode flag set and a
three-tool registry, `tools/list` returns exactly the `echo` and
`odoo_version` tools. -/
theorem claim_C9_witness :
    processJsonRpcRequest { MCP_MINIMAL_MODE := some "true" }
      { toolRegistry := { tools :=
          [("echo", { definition := { name := "echo", description := "", inputSchema := .null },
                      handler := fun _ => .ok .null }),
           ("odoo_version", { definition := { name := "odoo_version", description := "",
                                              inputSchema := .null },
                              handler := fun _ => .ok .null }),
           ("odoo_search", { definition := { name := "odoo_search", description := "",
                                             inputSchema := .null },
                             handler := fun _ => .ok .null })] } }
      { method := "tools/list" } none =
      { outcome := .result (.obj (objOfList [("tools",
          .arr (arrOfList ((((Option.getD (none : Option McpServerController)
              { toolRegistry := { tools :=
          [("echo", { definition := { name := "echo", description := "", inputSchema := .null },
                      handler := fun _ => .ok .null }),
           ("odoo_version", { definition := { name := "odoo_version", description := "",
                                              inputSchema := .null },
                              handler := fun _ => .ok .null }),
           ("odoo_search", { definition := { name := "odoo_search", description := "",
                                             inputSchema := .null },
                             handler := fun _ => .ok .null })] } }).getAvailableTools.filter
              (fun t => minimalAllowList.contains t.name)).map toolToJson))))])),
        id := none } :=
  (claim_C9_minimal_mode_filter { MCP_MINIMAL_MODE := some "true" }
      { toolRegistry := { tools :=
          [("echo", { definition := { name := "echo", description := "", inputSchema := .null },
                      handler := fun _ => .ok .null }),
           ("odoo_version", { definition := { name := "odoo_version", description := "",
                                              inputSchema := .null },
                              handler := fun _ => .ok .null }),
           ("odoo_search", { definition := { name := "odoo_search", description := "",
                                             inputSchema := .null },
                             handler := fun _ => .ok .null })] } }
      { method := "tools/list" } none rfl rfl rfl).1

/-! ## Claim theorems: session creation -/

/-- C3: for every session-creation call: if credential extraction on the
header bag succeeds, the session is stored with a present dedicated
controller (the freshly allocated instance) and exactly one
`odoo_connect` call is attempted on that controller with the extracted
credentials as arguments; if extraction fails, the session is stored with
an absent controller and no connect attempt; and in all cases — the
connect outcome (success or thrown error) being arbitrary — the session
entry exists in the store afterwards. -/
theorem claim_C3_session_creation_stores_entry
    (s : ServerState) (sid : Nat) (headers : HeaderBag)
    (connectOutcome : Except String Json) (now : Nat) :
    (∀ creds, extractOdooHeaders headers = some creds →
       jsMapLookup (createSessionWithHeaders s sid headers connectOutcome now).1.sessions sid =
         some { createdAt := now, controller := some s.nextCtrlId } ∧
       (createSessionWithHeaders s sid headers connectOutcome now).2 =
         [{ controller := s.nextCtrlId, tool := "odoo_connect", args := creds }]) ∧
    (extractOdooHeaders headers = none →
       jsMapLookup (createSessionWithHeaders s sid headers connectOutcome now).1.sessions sid =
         some { createdAt := now, controller := none } ∧
       (createSessionWithHeaders s sid headers connectOutcome now).2 = []) ∧
    (jsMapLookup (createSessionWithHeaders s sid headers connectOutcome now).1.sessions sid).isSome
      = true := by
  refine ⟨?_, ?_, ?_⟩
  · intro creds hx
    simp [createSessionWithHeaders, hx, jsMapLookup_set_self]
  · intro hx
    simp [createSessionWithHeaders, hx, jsMapLookup_set_self]
  · cases hx : extractOdooHeaders headers <;>
      simp [createSessionWithHeaders, hx, jsMapLookup_set_self]

/-- Witness for C3: creating a session from a credential-carrying header
bag (with a failing connect oracle) stores the entry with the fresh
controller and records exactly one connect attempt. -/
theorem claim_C3_witness :
    jsMapLookup (createSessionWithHeaders initialServerState 0
        (fun k => if k = "x-odoo-url" then some (.scalar "u") else
            if k = "x-odoo-db" then some (.scalar "d") else
            if k = "x-odoo-username" then some (.scalar "n") else
            if k = "x-odoo-password" then some (.scalar "p") else none)
        (.error "connect refused") 5).1.sessions 0 =
      some { createdAt := 5, controller := some 1 } ∧
    (createSessionWithHeaders initialServerState 0
        (fun k => if k = "x-odoo-url" then some (.scalar "u") else
            if k = "x-odoo-db" then some (.scalar "d") else
            if k = "x-odoo-username" then some (.scalar "n") else
            if k = "x-odoo-password" then some (.scalar "p") else none)
        (.error "connect refused") 5).2 =
      [{ controller := 1, tool := "odoo_connect",
         args := { url := "u", database := "d", username := "n", password := "p",
                   transport := "jsonrpc" } }] :=
  (claim_C3_session_creation_stores_entry initialServerState 0
      (fun k => if k = "x-odoo-url" then some (.scalar "u") else
          if k = "x-odoo-db" then some (.scalar "d") else
          if k = "x-odoo-username" then some (.scalar "n") else
          if k = "x-odoo-password" then some (.scalar "p") else none)
      (.error "connect refused") 5).1
    { url := "u", database := "d", username := "n", password := "p", transport := "jsonrpc" }
    (by decide)

/-! ## Session-store lemmas -/

theorem jsMapLookup_mem_keys (m : List (Nat × SessionEntry)) (k : Nat) (e : SessionEntry)
    (h : jsMapLookup m k = some e) : k ∈ m.map Prod.fst := by
  induction m with
  | nil => simp [jsMapLookup] at h
  | cons hd tl ih =>
      obtain ⟨k1, v1⟩ := hd
      by_cases h1 : k1 = k
      · subst h1; simp
      · rw [jsMapLookup, if_neg h1] at h
        simpa using Or.inr (ih h)

theorem jsMapLookup_eq_none_of_not_mem (m : List (Nat × SessionEntry)) (k : Nat)
    (h : k ∉ m.map Prod.fst) : jsMapLookup m k = none := by
  cases hl : jsMapLookup m k with
  | none => rfl
  | some e => exact absurd (jsMapLookup_mem_keys m k e hl) h

theorem jsMapLookup_set_cases (m : List (Nat × SessionEntry)) (k : Nat) (v : SessionEntry)
    (sid : Nat) (e : SessionEntry)
    (h : jsMapLookup (jsMapSet m k v) sid = some e) :
    (sid = k ∧ e = v) ∨ (sid ≠ k ∧ jsMapLookup m sid = some e) := by
  by_cases hs : sid = k
  · subst hs
    rw [jsMapLookup_set_self] at h
    exact Or.inl ⟨rfl, (Option.some_inj.mp h).symm⟩
  · rw [jsMapLookup_set_ne m k sid v hs] at h
    exact Or.inr ⟨hs, h⟩

theorem jsMapSet_mem_keys (m : List (Nat × SessionEntry)) (k : Nat) (v : SessionEntry)
    (a : Nat) : a ∈ (jsMapSet m k v).map Prod.fst ↔ a = k ∨ a ∈ m.map Prod.fst := by
  induction m with
  | nil => simp [jsMapSet]
  | cons hd tl ih =>
      obtain ⟨k1, v1⟩ := hd
      by_cases h1 : k1 = k
      · subst h1
        simp [jsMapSet]
      · simp only [jsMapSet, if_neg h1, List.map_cons, List.mem_cons, ih]
        tauto

theorem jsMapSet_keys_nodup (m : List (Nat × SessionEntry)) (k : Nat) (v : SessionEntry)
    (h : (m.map Prod.fst).Nodup) : ((jsMapSet m k v).map Prod.fst).Nodup := by
  induction m with
  | nil => simp [jsMapSet]
  | cons hd tl ih =>
      obtain ⟨k1, v1⟩ := hd
      simp only [List.map_cons, List.nodup_cons] at h
      by_cases h1 : k1 = k
      · subst h1
        simpa [jsMapSet] using h
      · simp only [jsMapSet, if_neg h1, List.map_cons, List.nodup_cons]
        refine ⟨?_, ih h.2⟩
        rw [jsMapSet_mem_keys]
        rintro (rfl | hmem)
        · exact h1 rfl
        · exact h.1 hmem

theorem jsMapDelete_sublist (m : List (Nat × SessionEntry)) (k : Nat) :
    (jsMapDelete m k).Sublist m := by
  induction m with
  | nil => simp [jsMapDelete]
  | cons hd tl ih =>
      obtain ⟨k1, v1⟩ := hd
      by_cases h1 : k1 = k
      · have hd : jsMapDelete ((k1, v1) :: tl) k = tl := by simp [jsMapDelete, h1]
        rw [hd]
        exact List.sublist_cons_self (k1, v1) tl
      · simpa [jsMapDelete, h1] using List.Sublist.cons₂ (k1, v1) ih

theorem jsMapDelete_keys_nodup (m : List (Nat × SessionEntry)) (k : Nat)
    (h : (m.map Prod.fst).Nodup) : ((jsMapDelete m k).map Prod.fst).Nodup :=
  ((jsMapDelete_sublist m k).map Prod.fst).nodup h

theorem jsMapLookup_delete_ne (m : List (Nat × SessionEntry)) (k sid : Nat)
    (h : sid ≠ k) : jsMapLookup (jsMapDelete m k) sid = jsMapLookup m sid := by
  induction m with
  | nil => simp [jsMapDelete]
  | cons hd tl ih =>
      obtain ⟨k1, v1⟩ := hd
      by_cases h1 : k1 = k
      · have hks : ¬ k = sid := fun hh => h hh.symm
        have hks1 : ¬ k1 = sid := fun hh => h (hh.symm.trans h1)
        simp [jsMapDelete, jsMapLookup, h1, hks, hks1]
      · by_cases h2 : k1 = sid <;> simp [jsMapDelete, jsMapLookup, h1, h2, h, ih]

theorem jsMapLookup_delete_self (m : List (Nat × SessionEntry)) (k : Nat)
    (h : (m.map Prod.fst).Nodup) : jsMapLookup (jsMapDelete m k) k = none := by
  induction m with
  | nil => simp [jsMapDelete, jsMapLookup]
  | cons hd tl ih =>
      obtain ⟨k1, v1⟩ := hd
      simp only [List.map_cons, List.nodup_cons] at h
      by_cases h1 : k1 = k
      · have hd : jsMapDelete ((k1, v1) :: tl) k = tl := by simp [jsMapDelete, h1]
        rw [hd]
        exact jsMapLookup_eq_none_of_not_mem tl k (h1 ▸ h.1)
      · simp [jsMapDelete, jsMapLookup, h1, ih h.2]

theorem jsMapLookup_delete_of_lookup (m : List (Nat × SessionEntry)) (k sid : Nat)
    (e : SessionEntry) (hnd : (m.map Prod.fst).Nodup)
    (h : jsMapLookup (jsMapDelete m k) sid = some e) :
    jsMapLookup m sid = some e := by
  by_cases hs : sid = k
  · subst hs
    rw [jsMapLookup_delete_self m sid hnd] at h
    cases h
  · rwa [jsMapLookup_delete_ne m k sid hs] at h

theorem sessionStoreInv_applyOp (s : ServerState) (op : SessionOp)
    (h : SessionStoreInv s) : SessionStoreInv (applyOp s op) := by
  cases op with
  | toolCall => exact h
  | terminate sid =>
      by_cases hin : (jsMapLookup s.sessions sid).isSome = true
      · simp only [applyOp, hin, if_true]
        refine ⟨jsMapDelete_keys_nodup _ _ h.keys_nodup, h.global_lt, ?_, ?_, ?_, ?_⟩
        · intro sid1 e h1
          exact h.sid_lt sid1 e (jsMapLookup_delete_of_lookup _ _ _ _ h.keys_nodup h1)
        · intro sid1 e c h1 hc
          exact h.ctrl_lt sid1 e c (jsMapLookup_delete_of_lookup _ _ _ _ h.keys_nodup h1) hc
        · intro sid1 e c h1 hc
          exact h.ctrl_gt_global sid1 e c
            (jsMapLookup_delete_of_lookup _ _ _ _ h.keys_nodup h1) hc
        · intro sid1 sid2 e1 e2 c h1 h2 hc1 hc2
          exact h.ctrl_inj sid1 sid2 e1 e2 c
            (jsMapLookup_delete_of_lookup _ _ _ _ h.keys_nodup h1)
            (jsMapLookup_delete_of_lookup _ _ _ _ h.keys_nodup h2) hc1 hc2
      · simp only [applyOp, hin, if_false]
        exact h
  | initSession headers outcome now =>
      cases hx : extractOdooHeaders headers with
      | some creds =>
          simp only [applyOp, createSessionWithHeaders, hx]
          refine ⟨jsMapSet_keys_nodup _ _ _ h.keys_nodup,
            Nat.lt_succ_of_lt h.global_lt, ?_, ?_, ?_, ?_⟩
          · intro sid1 e h1
            rcases jsMapLookup_set_cases _ _ _ _ _ h1 with ⟨rfl, rfl⟩ | ⟨_, hold⟩
            · exact Nat.lt_succ_self _
            · exact Nat.lt_succ_of_lt (h.sid_lt _ _ hold)
          · intro sid1 e c h1 hc
            rcases jsMapLookup_set_cases _ _ _ _ _ h1 with ⟨rfl, rfl⟩ | ⟨_, hold⟩
            · cases hc
              exact Nat.lt_succ_self _
            · exact Nat.lt_succ_of_lt (h.ctrl_lt _ _ _ hold hc)
          · intro sid1 e c h1 hc
            rcases jsMapLookup_set_cases _ _ _ _ _ h1 with ⟨rfl, rfl⟩ | ⟨_, hold⟩
            · cases hc
              exact h.global_lt
            · exact h.ctrl_gt_global _ _ _ hold hc
          · intro sid1 sid2 e1 e2 c h1 h2 hc1 hc2
            rcases jsMapLookup_set_cases _ _ _ _ _ h1 with ⟨rfl, rfl⟩ | ⟨_, hold1⟩ <;>
              rcases jsMapLookup_set_cases _ _ _ _ _ h2 with ⟨h2k, h2v⟩ | ⟨_, hold2⟩
            · exact h2k.symm
            · cases hc1
              exact absurd (h.ctrl_lt _ _ _ hold2 hc2) (lt_irrefl _)
            · subst h2v
              cases hc2
              exact absurd (h.ctrl_lt _ _ _ hold1 hc1) (lt_irrefl _)
            · exact h.ctrl_inj _ _ _ _ _ hold1 hold2 hc1 hc2
      | none =>
          simp only [applyOp, createSessionWithHeaders, hx]
          refine ⟨jsMapSet_keys_nodup _ _ _ h.keys_nodup, h.global_lt, ?_, ?_, ?_, ?_⟩
          · intro sid1 e h1
            rcases jsMapLookup_set_cases _ _ _ _ _ h1 with ⟨rfl, rfl⟩ | ⟨_, hold⟩
            · exact Nat.lt_succ_self _
            · exact Nat.lt_succ_of_lt (h.sid_lt _ _ hold)
          · intro sid1 e c h1 hc
            rcases jsMapLookup_set_cases _ _ _ _ _ h1 with ⟨rfl, rfl⟩ | ⟨_, hold⟩
            · cases hc
            · exact h.ctrl_lt _ _ _ hold hc
          · intro sid1 e c h1 hc
            rcases jsMapLookup_set_cases _ _ _ _ _ h1 with ⟨rfl, rfl⟩ | ⟨_, hold⟩
            · cases hc
            · exact h.ctrl_gt_global _ _ _ hold hc
          · intro sid1 sid2 e1 e2 c h1 h2 hc1 hc2
            rcases jsMapLookup_set_cases _ _ _ _ _ h1 with ⟨rfl, rfl⟩ | ⟨_, hold1⟩
            · cases hc1
            · rcases jsMapLookup_set_cases _ _ _ _ _ h2 with ⟨h2k, h2v⟩ | ⟨_, hold2⟩
              · subst h2v
                cases hc2
              · exact h.ctrl_inj _ _ _ _ _ hold1 hold2 hc1 hc2

theorem sessionStoreInv_initial : SessionStoreInv initialServerState := by
  refine ⟨by simp [initialServerState], by simp [initialServerState], ?_, ?_, ?_, ?_⟩ <;>
    intro sid e <;> simp [initialServerState, jsMapLookup]

theorem sessionStoreInv_applyOps (l : List SessionOp) :
    ∀ s : ServerState, SessionStoreInv s → SessionStoreInv (applyOps s l) := by
  induction l with
  | nil => intro s h; exact h
  | cons op rest ih =>
      intro s h
      exact ih (applyOp s op) (sessionStoreInv_applyOp s op h)

theorem nextSid_mono_applyOp (s : ServerState) (op : SessionOp) :
    s.nextSid ≤ (applyOp s op).nextSid := by
  cases op with
  | toolCall => exact le_refl _
  | terminate sid =>
      by_cases hin : (jsMapLookup s.sessions sid).isSome = true <;>
        simp [applyOp, hin]
  | initSession headers outcome now =>
      cases hx : extractOdooHeaders headers <;>
        simp [applyOp, createSessionWithHeaders, hx]

theorem lookup_applyOp_of_lt (s : ServerState) (op : SessionOp) (sid : Nat)
    (h : SessionStoreInv s) (hsid : sid < s.nextSid) :
    jsMapLookup (applyOp s op).sessions sid = jsMapLookup s.sessions sid ∨
    jsMapLookup (applyOp s op).sessions sid = none := by
  cases op with
  | toolCall => exact Or.inl rfl
  | initSession headers outcome now =>
      have hne : sid ≠ s.nextSid := Nat.ne_of_lt hsid
      cases hx : extractOdooHeaders headers <;>
        simp only [applyOp, createSessionWithHeaders, hx] <;>
        exact Or.inl (jsMapLookup_set_ne _ _ _ _ hne)
  | terminate k =>
      by_cases hin : (jsMapLookup s.sessions k).isSome = true
      · simp only [applyOp, hin, if_true]
        by_cases hk : sid = k
        · subst hk
          exact Or.inr (jsMapLookup_delete_self _ _ h.keys_nodup)
        · exact Or.inl (jsMapLookup_delete_ne _ _ _ hk)
      · simp only [applyOp, hin, if_false]
        exact Or.inl rfl

theorem lookup_none_applyOps (l : List SessionOp) :
    ∀ s : ServerState, SessionStoreInv s → ∀ sid : Nat, sid < s.nextSid →
      jsMapLookup s.sessions sid = none →
      jsMapLookup (applyOps s l).sessions sid = none := by
  induction l with
  | nil => intro s _ sid _ hnone; exact hnone
  | cons op rest ih =>
      intro s hInv sid hlt hnone
      have hstep : jsMapLookup (applyOp s op).sessions sid = none := by
        rcases lookup_applyOp_of_lt s op sid hInv hlt with h | h
        · rw [h, hnone]
        · exact h
      exact ih (applyOp s op) (sessionStoreInv_applyOp s op hInv) sid
        (lt_of_lt_of_le hlt (nextSid_mono_applyOp s op)) hstep

theorem lookup_applyOps_persist (l : List SessionOp) :
    ∀ s : ServerState, SessionStoreInv s → ∀ (sid : Nat) (e : SessionEntry),
      jsMapLookup s.sessions sid = some e →
      ∀ e2 : SessionEntry, jsMapLookup (applyOps s l).sessions sid = some e2 → e2 = e := by
  induction l with
  | nil =>
      intro s _ sid e h1 e2 h2
      rw [show applyOps s [] = s from rfl, h1] at h2
      exact (Option.some_inj.mp h2).symm
  | cons op rest ih =>
      intro s hInv sid e h1 e2 h2
      have hsid : sid < s.nextSid := hInv.sid_lt sid e h1
      have hnext : SessionStoreInv (applyOp s op) := sessionStoreInv_applyOp s op hInv
      rcases lookup_applyOp_of_lt s op sid hInv hsid with hstep | hstep
      · exact ih (applyOp s op) hnext sid e (hstep.trans h1) e2 h2
      · have : jsMapLookup (applyOps (applyOp s op) rest).sessions sid = none :=
          lookup_none_applyOps rest (applyOp s op) hnext sid
            (lt_of_lt_of_le hsid (nextSid_mono_applyOp s op)) hstep
        rw [show applyOps s (op :: rest) = applyOps (applyOp s op) rest from rfl, this] at h2
        cases h2

/-! ## Claim theorems: session store invariants -/

/-- C4: invariant of the session store over every sequence of operations
from server construction (initialize, lookups/tool calls, terminate): once
a session entry is stored, it — in particular its controller field — is
never replaced or mutated for as long as the entry exists under later
operations; each session created with credentials owns a controller
instance distinct from the process-global controller and from every other
session's controller (fresh allocation: separate registry, separate
backend connection state). -/
theorem claim_C4_session_controller_isolation (ops more : List SessionOp) :
    (∀ (sid : Nat) (e e2 : SessionEntry),
       jsMapLookup (applyOps initialServerState ops).sessions sid = some e →
       jsMapLookup (applyOps initialServerState (ops ++ more)).sessions sid = some e2 →
       e2 = e) ∧
    (∀ (sid : Nat) (e : SessionEntry) (c : Nat),
       jsMapLookup (applyOps initialServerState ops).sessions sid = some e →
       e.controller = some c →
       c ≠ (applyOps initialServerState ops).globalCtrl) ∧
    (∀ (sid1 sid2 : Nat) (e1 e2 : SessionEntry) (c : Nat),
       jsMapLookup (applyOps initialServerState ops).sessions sid1 = some e1 →
       jsMapLookup (applyOps initialServerState ops).sessions sid2 = some e2 →
       e1.controller = some c → e2.controller = some c → sid1 = sid2) := by
  have hInv := sessionStoreInv_applyOps ops initialServerState sessionStoreInv_initial
  refine ⟨?_, ?_, ?_⟩
  · intro sid e e2 h1 h2
    have happ : applyOps initialServerState (ops ++ more) =
        applyOps (applyOps initialServerState ops) more := by
      simp [applyOps, List.foldl_append]
    rw [happ] at h2
    exact lookup_applyOps_persist more _ hInv sid e h1 e2 h2
  · intro sid e c h1 hc
    exact (hInv.ctrl_gt_global sid e c h1 hc).ne'
  · intro sid1 sid2 e1 e2 c h1 h2 hc1 hc2
    exact hInv.ctrl_inj sid1 sid2 e1 e2 c h1 h2 hc1 hc2

/-- Witness for C4: after one credential-carrying initialize followed by a
tool call, the stored session's controller (instance 1) is distinct from
the process-global controller, and the entry survives the later operation
unchanged. -/
theorem claim_C4_witness :
    ({ createdAt := 0, controller := some 1 } : SessionEntry) =
      { createdAt := 0, controller := some 1 } ∧
    (1 : Nat) ≠ (applyOps initialServerState
      [.initSession (fun k => if k = "x-odoo-url" then some (.scalar "u") else
          if k = "x-odoo-db" then some (.scalar "d") else
          if k = "x-odoo-username" then some (.scalar "n") else
          if k = "x-odoo-password" then some (.scalar "p") else none)
        (.ok .null) 0]).globalCtrl := by
  have h := claim_C4_session_controller_isolation
    [.initSession (fun k => if k = "x-odoo-url" then some (.scalar "u") else
        if k = "x-odoo-db" then some (.scalar "d") else
        if k = "x-odoo-username" then some (.scalar "n") else
        if k = "x-odoo-password" then some (.scalar "p") else none)
      (.ok .null) 0]
    [.toolCall]
  exact ⟨h.1 0 { createdAt := 0, controller := some 1 }
      { createdAt := 0, controller := some 1 } (by decide) (by decide),
    h.2.1 0 { createdAt := 0, controller := some 1 } 1 (by decide) rfl⟩
